import Mathlib

/-!
Verification of the streaming chat consumer and typing renderer of the
ai-proma repository.

Strings of the JavaScript source are modelled as lists of characters
(List Char).  The host function JSON.parse is modelled by an executable
recursive-descent JSON reader (jsonParse below); JavaScript truthiness of
a parsed value is modelled by jsTruthy, and JavaScript string coercion by
jsToString.  The model of JSON.parse covers the full JSON grammar except
the \uXXXX string escape; number coercion keeps the source lexeme.
-/

/-- A parsed JSON value, as produced by the model of JSON.parse.
Numbers keep their source lexeme. -/
inductive Json where
  | null
  | bool (b : Bool)
  | num (lexeme : List Char)
  | str (s : List Char)
  | arr (elems : List Json)
  | obj (fields : List (List Char × Json))

/-- The opening curly brace character. -/
def lbrace : Char := Char.ofNat 123

/-- The closing curly brace character. -/
def rbrace : Char := Char.ofNat 125

/-- Insignificant whitespace accepted by the JSON grammar. -/
def isJsonWs (c : Char) : Bool := c = ' ' || c = '\t' || c = '\n' || c = '\r'

/-- Skip insignificant JSON whitespace. -/
def skipWs (cs : List Char) : List Char := cs.dropWhile isJsonWs

/-- Read the body of a JSON string literal after its opening quote,
returning the decoded characters and the remaining input.  The \uXXXX
escape is not modelled; encountering it makes the model reject the
input. -/
def parseStringBody (fuel : Nat) (acc : List Char) (cs : List Char) :
    Option (List Char × List Char) :=
  match fuel, cs with
  | 0, _ => none
  | _ + 1, [] => none
  | fuel + 1, c :: rest =>
    if c = '\"' then some (acc.reverse, rest)
    else if c = '\\' then
      match rest with
      | [] => none
      | e :: rest2 =>
        if e = '\"' then parseStringBody fuel ('\"' :: acc) rest2
        else if e = '\\' then parseStringBody fuel ('\\' :: acc) rest2
        else if e = '/' then parseStringBody fuel ('/' :: acc) rest2
        else if e = 'n' then parseStringBody fuel ('\n' :: acc) rest2
        else if e = 't' then parseStringBody fuel ('\t' :: acc) rest2
        else if e = 'r' then parseStringBody fuel ('\r' :: acc) rest2
        else if e = 'b' then parseStringBody fuel (Char.ofNat 8 :: acc) rest2
        else if e = 'f' then parseStringBody fuel (Char.ofNat 12 :: acc) rest2
        else none
    else if c.toNat < 32 then none
    else parseStringBody fuel (c :: acc) rest

/-- Read the fractional part of a JSON number, if present. -/
def parseFrac (cs : List Char) : Option (List Char × List Char) :=
  match cs with
  | '.' :: rest =>
    let ds := rest.takeWhile Char.isDigit
    if ds = [] then none else some ('.' :: ds, rest.dropWhile Char.isDigit)
  | _ => some ([], cs)

/-- Read the exponent part of a JSON number, if present. -/
def parseExp (cs : List Char) : Option (List Char × List Char) :=
  match cs with
  | c :: rest =>
    if c = 'e' ∨ c = 'E' then
      let signAndRest : List Char × List Char :=
        match rest with
        | '+' :: r => (['+'], r)
        | '-' :: r => (['-'], r)
        | _ => ([], rest)
      let ds := signAndRest.2.takeWhile Char.isDigit
      if ds = [] then none
      else some (c :: signAndRest.1 ++ ds, signAndRest.2.dropWhile Char.isDigit)
    else some ([], cs)
  | [] => some ([], [])

/-- Read a JSON number, returning its lexeme and the remaining input.
Leading zeros are rejected as in the JSON grammar. -/
def parseNumber (cs : List Char) : Option (List Char × List Char) :=
  let signAndRest : List Char × List Char :=
    match cs with
    | '-' :: rest => (['-'], rest)
    | _ => ([], cs)
  let intDigits := signAndRest.2.takeWhile Char.isDigit
  let afterInt := signAndRest.2.dropWhile Char.isDigit
  if intDigits = [] then none
  else if 1 < intDigits.length ∧ intDigits.head? = some '0' then none
  else
    match parseFrac afterInt with
    | none => none
    | some (fracLex, afterFrac) =>
      match parseExp afterFrac with
      | none => none
      | some (expLex, afterExp) =>
        some (signAndRest.1 ++ intDigits ++ fracLex ++ expLex, afterExp)

mutual

/-- Read one JSON value from the input, model of the recursive descent
performed by JSON.parse. -/
def parseValue : Nat → List Char → Option (Json × List Char)
  | 0, _ => none
  | fuel + 1, cs =>
    match skipWs cs with
    | [] => none
    | c :: rest =>
      if c = '\"' then
        (parseStringBody (rest.length + 1) [] rest).map
          (fun p => (Json.str p.1, p.2))
      else if c = lbrace then parseMembers fuel true [] rest
      else if c = '[' then parseElems fuel true [] rest
      else if c = 't' then
        match rest with
        | 'r' :: 'u' :: 'e' :: r => some (Json.bool true, r)
        | _ => none
      else if c = 'f' then
        match rest with
        | 'a' :: 'l' :: 's' :: 'e' :: r => some (Json.bool false, r)
        | _ => none
      else if c = 'n' then
        match rest with
        | 'u' :: 'l' :: 'l' :: r => some (Json.null, r)
        | _ => none
      else
        (parseNumber (c :: rest)).map (fun p => (Json.num p.1, p.2))
termination_by structural fuel _ => fuel

/-- Read the elements of a JSON array after its opening bracket. -/
def parseElems : Nat → Bool → List Json → List Char →
    Option (Json × List Char)
  | 0, _, _, _ => none
  | fuel + 1, isFirst, acc, cs =>
    match skipWs cs with
    | [] => none
    | c :: rest =>
      if c = ']' then some (Json.arr acc.reverse, rest)
      else if isFirst then
        match parseValue fuel (c :: rest) with
        | some (v, r) => parseElems fuel false (v :: acc) r
        | none => none
      else if c = ',' then
        match parseValue fuel rest with
        | some (v, r) => parseElems fuel false (v :: acc) r
        | none => none
      else none
termination_by structural fuel _ _ _ => fuel

/-- Read one key-value member of a JSON object. -/
def parseMember : Nat → List Char → Option ((List Char × Json) × List Char)
  | 0, _ => none
  | fuel + 1, cs =>
    match skipWs cs with
    | '\"' :: rest =>
      match parseStringBody (rest.length + 1) [] rest with
      | some (key, r1) =>
        match skipWs r1 with
        | ':' :: r2 =>
          match parseValue fuel r2 with
          | some (v, r3) => some ((key, v), r3)
          | none => none
        | _ => none
      | none => none
    | _ => none
termination_by structural fuel _ => fuel

/-- Read the members of a JSON object after its opening brace. -/
def parseMembers : Nat → Bool → List (List Char × Json) → List Char →
    Option (Json × List Char)
  | 0, _, _, _ => none
  | fuel + 1, isFirst, acc, cs =>
    match skipWs cs with
    | [] => none
    | c :: rest =>
      if c = rbrace then some (Json.obj acc.reverse, rest)
      else if isFirst then
        match parseMember fuel (c :: rest) with
        | some (kv, r) => parseMembers fuel false (kv :: acc) r
        | none => none
      else if c = ',' then
        match parseMember fuel rest with
        | some (kv, r) => parseMembers fuel false (kv :: acc) r
        | none => none
      else none
termination_by structural fuel _ _ _ => fuel

end

/-- Model of JSON.parse: the whole input, up to surrounding whitespace,
must be one JSON value, otherwise the result is none (JSON.parse throws). -/
def jsonParse (s : List Char) : Option Json :=
  match parseValue (2 * s.length + 2) s with
  | some (v, rest) => if skipWs rest = [] then some v else none
  | none => none

/-- Property access on a parsed JSON value: for an object, the value of
the given key (on duplicate keys JSON.parse keeps the last one); anything
else has no such property. -/
def getField (j : Json) (key : List Char) : Option Json :=
  match j with
  | Json.obj fields => (fields.reverse.find? (fun kv => kv.1 == key)).map Prod.snd
  | _ => none

/-- Whether a JSON number lexeme denotes zero: no nonzero digit occurs in
its mantissa. -/
def numIsZero (lexeme : List Char) : Bool :=
  (lexeme.takeWhile (fun c => ¬ (c = 'e' ∨ c = 'E'))).all
    (fun c => ¬ c.isDigit ∨ c = '0')

/-- JavaScript truthiness of a parsed JSON value. -/
def jsTruthy : Json → Bool
  | Json.null => false
  | Json.bool b => b
  | Json.num lexeme => ¬ numIsZero lexeme
  | Json.str s => s ≠ []
  | Json.arr _ => true
  | Json.obj _ => true

/-- JavaScript truthiness of a possibly absent property (undefined is
falsy). -/
def jsTruthyOpt : Option Json → Bool
  | none => false
  | some v => jsTruthy v

mutual

/-- JavaScript string coercion of a parsed JSON value, as used when the
source appends a parsed field to a string accumulator.  Number lexemes
are kept verbatim (a model of the JavaScript number-to-string
conversion); objects stringify to the usual object tag. -/
def jsToString : Json → List Char
  | Json.null => 'n' :: 'u' :: 'l' :: 'l' :: []
  | Json.bool true => 't' :: 'r' :: 'u' :: 'e' :: []
  | Json.bool false => 'f' :: 'a' :: 'l' :: 's' :: 'e' :: []
  | Json.num lexeme => lexeme
  | Json.str s => s
  | Json.arr elems => jsToStringList elems
  | Json.obj _ => ('[' :: 'o' :: 'b' :: 'j' :: 'e' :: 'c' :: 't' :: ' ' ::
      'O' :: 'b' :: 'j' :: 'e' :: 'c' :: 't' :: ']' :: [])

/-- Comma-joined string coercion of array elements. -/
def jsToStringList : List Json → List Char
  | [] => []
  | [x] => jsToString x
  | x :: y :: xs => jsToString x ++ ',' :: jsToStringList (y :: xs)

end

/-- Model of the JavaScript String.startsWith test on character lists:
the second argument read at the start of the first. -/
def jsStartsWith : List Char → List Char → Bool
  | _, [] => true
  | [], _ :: _ => false
  | c :: cs, p :: ps => c == p && jsStartsWith cs ps

/-- Characters removed by the JavaScript String.trim (the common ASCII
ones; the model omits the exotic Unicode whitespace code points). -/
def jsWhitespaceChar (c : Char) : Bool :=
  c = ' ' || c = '\t' || c = '\n' || c = '\r' ||
  c = Char.ofNat 11 || c = Char.ofNat 12

/-- Model of the JavaScript String.trim. -/
def jsTrim (s : List Char) : List Char :=
  ((s.dropWhile jsWhitespaceChar).reverse.dropWhile jsWhitespaceChar).reverse

namespace FaramexChat

/-- The event-data marker checked by line.startsWith in sendToAPI. -/
def dataMarker : List Char := "data: ".toList

/-- The end-of-stream sentinel payload compared against in sendToAPI. -/
def doneSentinel : List Char := "[DONE]".toList

/-- The JSON field read from each parsed frame in sendToAPI. -/
def contentKey : List Char := "content".toList

/-- One iteration of the inner line loop of sendToAPI: given the current
accumulated agent message and one line of the decoded chunk, the new
accumulated agent message.  Mirrors the source: lines without the
event-data marker are ignored; the sentinel payload is skipped by
continue; a payload parsed by JSON.parse contributes its content field
when that field is truthy; a payload JSON.parse throws on is appended
verbatim by the catch branch. -/
def processLine (agentMessage line : List Char) : List Char :=
  if jsStartsWith line dataMarker then
    let data := line.drop 6
    if data = doneSentinel then agentMessage
    else
      match jsonParse data with
      | some jsonData =>
        match getField jsonData contentKey with
        | some v => if jsTruthy v then agentMessage ++ jsToString v else agentMessage
        | none => agentMessage
      | none => agentMessage ++ data
  else agentMessage

/-- The text the processing of one line appends to the accumulator, if
any; the branch structure follows processLine. -/
def lineDelta (line : List Char) : Option (List Char) :=
  if jsStartsWith line dataMarker then
    let data := line.drop 6
    if data = doneSentinel then none
    else
      match jsonParse data with
      | some jsonData =>
        match getField jsonData contentKey with
        | some v => if jsTruthy v then some (jsToString v) else none
        | none => none
      | none => some data
  else none

/-- Processing of one decoded chunk in sendToAPI: the chunk is split on
newlines and every resulting line is processed in order, with no
carry-over of a partial trailing line. -/
def processChunk (agentMessage chunk : List Char) : List Char :=
  (chunk.splitOn '\n').foldl processLine agentMessage

/-- The accumulated agent message after the read loop of sendToAPI has
consumed the given chunks, starting from the empty accumulator. -/
def runStream (chunks : List (List Char)) : List Char :=
  chunks.foldl processChunk []

/-- All lines of a stream, in processing order. -/
def chunkLines (chunks : List (List Char)) : List (List Char) :=
  (chunks.map (List.splitOn '\n')).flatten

/-- The ordered sequence of appended texts produced by the read loop of
sendToAPI on the given chunks. -/
def streamDeltas (chunks : List (List Char)) : List (List Char) :=
  (chunkLines chunks).filterMap lineDelta

/-- The HTTP response handed to sendToAPI, with its body as a byte
stream: each chunk is tagged with the number of milliseconds of silence
that preceded its arrival.  The source contains no timer, clock read or
abort controller, so the read loop in the embedding consumes only the
chunk data. -/
structure ChatResponse where
  ok : Bool
  status : Nat
  body : List (Nat × List Char)

/-- Terminal outcome of one sendToAPI invocation.  The timedOut variant
is part of the vocabulary of the specification; the embedding shows the
source never produces it. -/
inductive ChatResult where
  | httpError (status : Nat)
  | timedOut
  | completed (text : List Char)
deriving DecidableEq

/-- Model of sendToAPI after the fetch resolved: a non-ok response
status throws; otherwise the read loop consumes every body chunk in
arrival order and the invocation completes with the accumulated agent
message. -/
def sendToAPI (r : ChatResponse) : ChatResult :=
  if r.ok then
    ChatResult.completed (r.body.foldl (fun acc chunk => processChunk acc chunk.2) [])
  else
    ChatResult.httpError r.status

end FaramexChat

namespace FaramexChat

/-- The class state touched by sendMessage: the input box, the attached
image list, the typing indicator visibility, and the chat log of message
texts added to the conversation. -/
structure ChatState where
  inputValue : List Char
  attachedImages : List (List Char)
  typingVisible : Bool
  chatLog : List (List Char)
deriving DecidableEq

/-- The fallback agent message added by the catch branch of sendMessage. -/
def errorText : List Char :=
  "Xin lỗi, đã có lỗi xảy ra khi xử lý tin nhắn của bạn. Vui lòng thử lại.".toList

/-- Outcome of the one HTTP POST performed by sendToAPI, as observed by
sendMessage: the fetch rejects, the response status is not ok, or the
response streams a body and the read loop runs to completion. -/
inductive ApiOutcome where
  | networkError
  | httpError (status : Nat)
  | streamed (chunks : List (List Char))
deriving DecidableEq

/-- Whether the read loop of sendToAPI creates an agent message element:
it does exactly when some processed line carries the event-data marker
with a non-sentinel payload. -/
def elementCreated (chunks : List (List Char)) : Bool :=
  (chunkLines chunks).any
    (fun line => jsStartsWith line dataMarker && line.drop 6 ≠ doneSentinel)

/-- Model of FaramexChat.sendMessage.  The trimmed input must be
non-empty or an image must be attached, otherwise the function returns
at once; then the user message is added, the input and attachments are
cleared, the typing indicator is shown, and sendToAPI runs: the ok path
hides the indicator before the read loop and adds or updates one agent
message element; every thrown error is caught, the indicator hidden and
the fallback message added.  The returned Bool records whether the HTTP
request was issued. -/
def sendMessage (s : ChatState) (outcome : ApiOutcome) : ChatState × Bool :=
  let message := jsTrim s.inputValue
  if message = [] ∧ s.attachedImages = [] then (s, false)
  else
    let s1 : ChatState :=
      { inputValue := [], attachedImages := [], typingVisible := true,
        chatLog := s.chatLog ++ [message] }
    match outcome with
    | ApiOutcome.networkError =>
      ({ s1 with typingVisible := false, chatLog := s1.chatLog ++ [errorText] }, true)
    | ApiOutcome.httpError _ =>
      ({ s1 with typingVisible := false, chatLog := s1.chatLog ++ [errorText] }, true)
    | ApiOutcome.streamed chunks =>
      ({ s1 with
         typingVisible := false,
         chatLog := s1.chatLog ++
           (if elementCreated chunks then [runStream chunks] else []) }, true)

end FaramexChat

namespace PromaDashboard

/-- One iteration of the reveal loop of typeAIResponse: the next word is
appended to the current text, with a separating space except before the
first word, and the grown text is rendered.  The returned list collects
the successive rendered texts. -/
def typeLoop : Bool → List Char → List (List Char) → List (List Char)
  | _, _, [] => []
  | isFirst, currentText, w :: ws =>
    let grown := currentText ++ (if isFirst then [] else [' ']) ++ w
    grown :: typeLoop false grown ws

/-- Model of PromaDashboard.typeAIResponse: the input is split on the
space character and the words are revealed cumulatively; the result is
the sequence of partial texts rendered into the message bubble, in
order. -/
def typeAIResponse (text : List Char) : List (List Char) :=
  typeLoop true [] (text.splitOn ' ')

/-- The number of awaited inter-word delays performed by typeAIResponse:
one per loop iteration. -/
def typeDelayCount (text : List Char) : Nat :=
  (text.splitOn ' ').length

/-- The class state touched by PromaDashboard.sendMessage: the input
box, the attached image list, the two indicator visibilities, and the
chat log of message texts. -/
structure DashState where
  inputValue : List Char
  attachedImages : List (List Char)
  typingVisible : Bool
  thinkingVisible : Bool
  chatLog : List (List Char)
deriving DecidableEq

/-- The fallback agent message added by the catch branch of
PromaDashboard.sendMessage. -/
def errorText : List Char :=
  "Xin lỗi, tôi gặp sự cố khi xử lý tin nhắn của bạn. Vui lòng thử lại.".toList

/-- Outcome of the one HTTP POST performed by callAI: the fetch rejects,
the response status is not ok, or a JSON body arrives and callAI returns
the answer text extracted from it. -/
inductive CallOutcome where
  | networkError
  | httpError (status : Nat)
  | answered (text : List Char)
deriving DecidableEq

/-- Model of PromaDashboard.sendMessage.  The trimmed input must be
non-empty or an image must be attached, otherwise the function returns
at once; then the user message is added, the input cleared, the
thinking status and the typing indicator shown, and callAI runs: on
success both indicators are hidden and the answer is revealed by
typeAIResponse, whose last rendered text is the agent entry; on any
thrown error both indicators are hidden and the fallback message added.
The returned Bool records whether the HTTP request was issued. -/
def sendMessage (s : DashState) (outcome : CallOutcome) : DashState × Bool :=
  let message := jsTrim s.inputValue
  if message = [] ∧ s.attachedImages = [] then (s, false)
  else
    let s1 : DashState :=
      { s with inputValue := [], chatLog := s.chatLog ++ [message],
               thinkingVisible := true, typingVisible := true }
    match outcome with
    | CallOutcome.networkError =>
      ({ s1 with
         thinkingVisible := false,
         typingVisible := false,
         chatLog := s1.chatLog ++ [errorText] }, true)
    | CallOutcome.httpError _ =>
      ({ s1 with
         thinkingVisible := false,
         typingVisible := false,
         chatLog := s1.chatLog ++ [errorText] }, true)
    | CallOutcome.answered text =>
      ({ s1 with
         thinkingVisible := false,
         typingVisible := false,
         chatLog := s1.chatLog ++ [(typeAIResponse text).getLastD []] }, true)

end PromaDashboard

namespace FaramexChat

theorem processLine_eq_delta (acc line : List Char) :
    processLine acc line = acc ++ (lineDelta line).getD [] := by
  by_cases h1 : jsStartsWith line dataMarker
  · by_cases h2 : line.drop 6 = doneSentinel
    · simp [processLine, lineDelta, h1, h2]
    · cases h3 : jsonParse (line.drop 6) with
      | none => simp [processLine, lineDelta, h1, h2, h3]
      | some j =>
        cases h4 : getField j contentKey with
        | none => simp [processLine, lineDelta, h1, h2, h3, h4]
        | some v =>
          by_cases h5 : jsTruthy v
          · simp [processLine, lineDelta, h1, h2, h3, h4, h5]
          · simp [processLine, lineDelta, h1, h2, h3, h4, h5]
  · simp [processLine, lineDelta, h1]

theorem foldl_processLine_eq (lines : List (List Char)) (acc : List Char) :
    lines.foldl processLine acc = acc ++ (lines.filterMap lineDelta).flatten := by
  induction lines generalizing acc with
  | nil => simp
  | cons l ls ih =>
    rw [List.foldl_cons, ih, processLine_eq_delta]
    cases h : lineDelta l <;> simp [List.filterMap_cons, h]

theorem processChunk_eq (acc chunk : List Char) :
    processChunk acc chunk =
      acc ++ ((chunk.splitOn '\n').filterMap lineDelta).flatten :=
  foldl_processLine_eq _ _

theorem foldl_processChunk_eq (chunks : List (List Char)) (acc : List Char) :
    chunks.foldl processChunk acc = acc ++ (streamDeltas chunks).flatten := by
  induction chunks generalizing acc with
  | nil => simp [streamDeltas, chunkLines]
  | cons c cs ih =>
    rw [List.foldl_cons, ih, processChunk_eq]
    simp [streamDeltas, chunkLines, List.filterMap_append, List.append_assoc]

theorem runStream_eq_deltas (chunks : List (List Char)) :
    runStream chunks = (streamDeltas chunks).flatten := by
  simpa [runStream] using foldl_processChunk_eq chunks []

end FaramexChat

/-- C1: for every successful stream, the accumulated agent message equals
the concatenation, in arrival order, of the appended text of every
processed frame; in particular the frame sequence with contents "A" and
"B" followed by the sentinel accumulates to "AB". -/
theorem c1_accumulated_message_is_concat_of_deltas :
    (∀ chunks : List (List Char),
      FaramexChat.runStream chunks = (FaramexChat.streamDeltas chunks).flatten) ∧
    FaramexChat.runStream
      ["data: \x7b\"content\":\"A\"\x7d\n".toList,
       "data: \x7b\"content\":\"B\"\x7d\n".toList,
       "data: [DONE]\n".toList] = "AB".toList ∧
    FaramexChat.streamDeltas
      ["data: \x7b\"content\":\"A\"\x7d\n".toList,
       "data: \x7b\"content\":\"B\"\x7d\n".toList,
       "data: [DONE]\n".toList] = ["A".toList, "B".toList] :=
  ⟨FaramexChat.runStream_eq_deltas, rfl, rfl⟩

/-- C2 counterexample: the frame whose line is split across two reads as
the chunks given below does not yield a single append of "hi"; the read
loop keeps no partial trailing line across reads. -/
theorem c2_counterexample :
    FaramexChat.streamDeltas
      ["data: \x7b\"cont".toList, "ent\":\"hi\"\x7d\n".toList] ≠ ["hi".toList] ∧
    FaramexChat.runStream
      ["data: \x7b\"cont".toList, "ent\":\"hi\"\x7d\n".toList] ≠ "hi".toList := by
  decide

/-- C2 amended: a partial trailing line is not retained across reads;
each chunk is split on newlines and every piece is processed at once, so
the split frame yields exactly one appended text, the first fragment's
payload, while the second fragment's line lacks the event-data marker
and is ignored; the same line arriving whole yields the append "hi". -/
theorem c2_amended_no_partial_line_buffering :
    FaramexChat.streamDeltas
      ["data: \x7b\"cont".toList, "ent\":\"hi\"\x7d\n".toList]
      = ["\x7b\"cont".toList] ∧
    FaramexChat.runStream
      ["data: \x7b\"cont".toList, "ent\":\"hi\"\x7d\n".toList]
      = "\x7b\"cont".toList ∧
    FaramexChat.streamDeltas
      ["data: \x7b\"content\":\"hi\"\x7d\n".toList] = ["hi".toList] :=
  ⟨rfl, rfl, rfl⟩

/-- C3 counterexample: a response whose only body chunk arrives after
31 seconds of silence is processed normally and the invocation completes
with the accumulated text; no timeout outcome is signalled even though
the claim requires a Timeout failure and no completion there. -/
theorem c3_counterexample :
    FaramexChat.sendToAPI
      { ok := true, status := 200,
        body := [(31000, "data: \x7b\"content\":\"late\"\x7d\n".toList)] }
      = FaramexChat.ChatResult.completed ("late".toList) ∧
    FaramexChat.sendToAPI
      { ok := true, status := 200,
        body := [(31000, "data: \x7b\"content\":\"late\"\x7d\n".toList)] }
      ≠ FaramexChat.ChatResult.timedOut := by
  exact ⟨rfl, by decide⟩

/-- C3 amended: the consumer implements no inactivity timeout: the
source starts no timer and never aborts the read, so no invocation ever
yields a timeout outcome, and the result of an invocation is unchanged
when every period of silence preceding a chunk is replaced by zero. -/
theorem c3_amended_no_timeout_exists (r : FaramexChat.ChatResponse) :
    FaramexChat.sendToAPI r ≠ FaramexChat.ChatResult.timedOut ∧
    FaramexChat.sendToAPI r =
      FaramexChat.sendToAPI
        { r with body := r.body.map (fun chunk => (0, chunk.2)) } := by
  constructor
  · unfold FaramexChat.sendToAPI
    split <;> simp
  · unfold FaramexChat.sendToAPI
    simp [List.foldl_map]

/-- C4 counterexample: the sentinel line carries the event-data marker
and its payload fails to parse as JSON, yet nothing is appended: the
payload [DONE] is dropped, so the claim fails on this line. -/
theorem c4_counterexample :
    jsStartsWith ("data: [DONE]".toList) FaramexChat.dataMarker = true ∧
    jsonParse (("data: [DONE]".toList).drop 6) = none ∧
    FaramexChat.processLine [] ("data: [DONE]".toList) = [] ∧
    ([] : List Char) ≠ [] ++ ("data: [DONE]".toList).drop 6 := by
  exact ⟨rfl, rfl, rfl, by decide⟩

/-- C4 amended: for every complete line carrying the event-data marker
whose payload is not the termination sentinel and fails to parse as
JSON, the entire payload is appended to the accumulator; the processing
is a total function, so no exception escapes. -/
theorem c4_amended_parse_failure_appends_payload (acc line : List Char)
    (hpre : jsStartsWith line FaramexChat.dataMarker = true)
    (hsent : line.drop 6 ≠ FaramexChat.doneSentinel)
    (hparse : jsonParse (line.drop 6) = none) :
    FaramexChat.processLine acc line = acc ++ line.drop 6 := by
  simp [FaramexChat.processLine, hpre, hsent, hparse]

/-- C4 witness: the frame with payload not-json satisfies the
hypotheses and appends the literal payload. -/
theorem c4_witness :
    jsStartsWith ("data: not-json".toList) FaramexChat.dataMarker = true ∧
    ("data: not-json".toList).drop 6 ≠ FaramexChat.doneSentinel ∧
    jsonParse (("data: not-json".toList).drop 6) = none ∧
    FaramexChat.processLine [] ("data: not-json".toList) =
      [] ++ ("data: not-json".toList).drop 6 :=
  ⟨rfl, by decide, rfl,
    c4_amended_parse_failure_appends_payload [] ("data: not-json".toList)
      rfl (by decide) rfl⟩

theorem foldl_processChunk_skips_sentinel (before after : List (List Char))
    (acc : List Char) :
    (before ++ "data: [DONE]\n".toList :: after).foldl
        FaramexChat.processChunk acc =
      (before ++ after).foldl FaramexChat.processChunk acc := by
  induction before generalizing acc with
  | nil => rfl
  | cons c cs ih => simpa [List.foldl_cons] using ih (FaramexChat.processChunk acc c)

/-- C6: a line whose payload is the termination sentinel leaves the
accumulator unchanged and does not terminate the read loop: the stream
is consumed to its end, so frames after the sentinel are still
processed, as in the concrete stream whose accumulated text is "AB". -/
theorem c6_sentinel_does_not_terminate_loop :
    (∀ acc : List Char,
      FaramexChat.processLine acc ("data: [DONE]".toList) = acc) ∧
    (∀ before after : List (List Char),
      FaramexChat.runStream (before ++ "data: [DONE]\n".toList :: after) =
        FaramexChat.runStream (before ++ after)) ∧
    FaramexChat.runStream
      ["data: \x7b\"content\":\"A\"\x7d\n".toList, "data: [DONE]\n".toList,
       "data: \x7b\"content\":\"B\"\x7d\n".toList] = "AB".toList := by
  exact ⟨fun acc => rfl,
    fun before after => foldl_processChunk_skips_sentinel before after [], rfl⟩

/-- C10: a line carrying the event-data marker whose payload parses as
JSON but whose content field is absent or falsy appends nothing to the
accumulator. -/
theorem c10_falsy_content_appends_nothing (acc line : List Char) (j : Json)
    (hpre : jsStartsWith line FaramexChat.dataMarker = true)
    (hparse : jsonParse (line.drop 6) = some j)
    (hfalsy : jsTruthyOpt (getField j FaramexChat.contentKey) = false) :
    FaramexChat.processLine acc line = acc := by
  by_cases hsent : line.drop 6 = FaramexChat.doneSentinel
  · simp [FaramexChat.processLine, hpre, hsent]
  · cases hf : getField j FaramexChat.contentKey with
    | none => simp [FaramexChat.processLine, hpre, hsent, hparse, hf]
    | some v =>
      rw [hf] at hfalsy
      simp only [jsTruthyOpt] at hfalsy
      simp [FaramexChat.processLine, hpre, hsent, hparse, hf, hfalsy]

/-- C10 witness: both a frame whose object lacks a content field and a
frame whose content field is the empty string append nothing. -/
theorem c10_witness :
    FaramexChat.processLine [] ("data: \x7b\"done\":true\x7d".toList) = [] ∧
    FaramexChat.processLine [] ("data: \x7b\"content\":\"\"\x7d".toList) = [] :=
  ⟨c10_falsy_content_appends_nothing [] ("data: \x7b\"done\":true\x7d".toList)
      (Json.obj [("done".toList, Json.bool true)]) rfl rfl rfl,
    c10_falsy_content_appends_nothing [] ("data: \x7b\"content\":\"\"\x7d".toList)
      (Json.obj [("content".toList, Json.str [])]) rfl rfl rfl⟩

/-- C5: whenever sendMessage issues a request, the typing and thinking
indicators shown at its start are hidden again by the time the
invocation completes, whether the request succeeds, the fetch rejects,
or the response status is not ok; this holds for both chat frontends. -/
theorem c5_indicators_cleared_on_all_outcomes
    (s : FaramexChat.ChatState) (o : FaramexChat.ApiOutcome)
    (t : PromaDashboard.DashState) (o' : PromaDashboard.CallOutcome)
    (hs : ¬ (jsTrim s.inputValue = [] ∧ s.attachedImages = []))
    (ht : ¬ (jsTrim t.inputValue = [] ∧ t.attachedImages = [])) :
    (FaramexChat.sendMessage s o).1.typingVisible = false ∧
    (PromaDashboard.sendMessage t o').1.typingVisible = false ∧
    (PromaDashboard.sendMessage t o').1.thinkingVisible = false := by
  refine ⟨?_, ?_, ?_⟩
  · unfold FaramexChat.sendMessage
    rw [if_neg hs]
    cases o <;> rfl
  · unfold PromaDashboard.sendMessage
    rw [if_neg ht]
    cases o' <;> rfl
  · unfold PromaDashboard.sendMessage
    rw [if_neg ht]
    cases o' <;> rfl

/-- C5 witness: a state with the message hi and no attachments, with a
rejected fetch in one frontend and a successful answer in the other. -/
theorem c5_witness :
    (FaramexChat.sendMessage
      { inputValue := "hi".toList, attachedImages := [],
        typingVisible := false, chatLog := [] }
      FaramexChat.ApiOutcome.networkError).1.typingVisible = false ∧
    (PromaDashboard.sendMessage
      { inputValue := "hi".toList, attachedImages := [],
        typingVisible := false, thinkingVisible := false, chatLog := [] }
      (PromaDashboard.CallOutcome.answered ("ok".toList))).1.typingVisible
      = false ∧
    (PromaDashboard.sendMessage
      { inputValue := "hi".toList, attachedImages := [],
        typingVisible := false, thinkingVisible := false, chatLog := [] }
      (PromaDashboard.CallOutcome.answered ("ok".toList))).1.thinkingVisible
      = false :=
  c5_indicators_cleared_on_all_outcomes
    { inputValue := "hi".toList, attachedImages := [],
      typingVisible := false, chatLog := [] }
    FaramexChat.ApiOutcome.networkError
    { inputValue := "hi".toList, attachedImages := [],
      typingVisible := false, thinkingVisible := false, chatLog := [] }
    (PromaDashboard.CallOutcome.answered ("ok".toList))
    (by decide) (by decide)

/-- C7: when the trimmed message text is empty and no images are
attached, sendMessage returns at once: the state is unchanged and no
HTTP request is issued, in both chat frontends. -/
theorem c7_empty_input_returns_without_effect
    (s : FaramexChat.ChatState) (o : FaramexChat.ApiOutcome)
    (t : PromaDashboard.DashState) (o' : PromaDashboard.CallOutcome)
    (hs1 : jsTrim s.inputValue = []) (hs2 : s.attachedImages = [])
    (ht1 : jsTrim t.inputValue = []) (ht2 : t.attachedImages = []) :
    FaramexChat.sendMessage s o = (s, false) ∧
    PromaDashboard.sendMessage t o' = (t, false) := by
  constructor
  · unfold FaramexChat.sendMessage
    rw [if_pos ⟨hs1, hs2⟩]
  · unfold PromaDashboard.sendMessage
    rw [if_pos ⟨ht1, ht2⟩]

/-- C7 witness: an input of two spaces trims to the empty string, so
sendMessage leaves the state untouched and issues no request. -/
theorem c7_witness :
    FaramexChat.sendMessage
      { inputValue := "  ".toList, attachedImages := [],
        typingVisible := false, chatLog := [] }
      (FaramexChat.ApiOutcome.streamed ["data: x\n".toList]) =
      ({ inputValue := "  ".toList, attachedImages := [],
         typingVisible := false, chatLog := [] }, false) ∧
    PromaDashboard.sendMessage
      { inputValue := "  ".toList, attachedImages := [],
        typingVisible := false, thinkingVisible := false, chatLog := [] }
      PromaDashboard.CallOutcome.networkError =
      ({ inputValue := "  ".toList, attachedImages := [],
         typingVisible := false, thinkingVisible := false, chatLog := [] },
       false) :=
  c7_empty_input_returns_without_effect
    { inputValue := "  ".toList, attachedImages := [],
      typingVisible := false, chatLog := [] }
    (FaramexChat.ApiOutcome.streamed ["data: x\n".toList])
    { inputValue := "  ".toList, attachedImages := [],
      typingVisible := false, thinkingVisible := false, chatLog := [] }
    PromaDashboard.CallOutcome.networkError
    (by decide) rfl (by decide) rfl

/-- C8 counterexample: on the empty string the typing renderer does not
produce an empty sequence and does not complete without delay: it
renders once and awaits one inter-word delay. -/
theorem c8_counterexample :
    PromaDashboard.typeAIResponse [] ≠ [] ∧
    PromaDashboard.typeDelayCount [] ≠ 0 := by
  decide

/-- C8 amended: on the empty string the typing renderer performs exactly
one loop iteration, because splitting the empty string on a space yields
one empty word: it emits a single partial render, the empty string, and
awaits one inter-word delay, so the rendered text on completion is
empty. -/
theorem c8_amended_empty_input_renders_once :
    PromaDashboard.typeAIResponse [] = [[]] ∧
    PromaDashboard.typeDelayCount [] = 1 ∧
    (PromaDashboard.typeAIResponse []).getLast? = some [] := by
  decide

namespace PromaDashboard

theorem intercalate_space_cons (w : List Char) (ws : List (List Char))
    (h : ws ≠ []) :
    List.intercalate [' '] (w :: ws) = w ++ [' '] ++ List.intercalate [' '] ws := by
  cases ws with
  | nil => cases h rfl
  | cons y ys =>
    simp [List.intercalate, List.intersperse_cons_cons, List.append_assoc]

theorem typeLoop_cons (isFirst : Bool) (cur w : List Char)
    (ws : List (List Char)) :
    typeLoop isFirst cur (w :: ws) =
      (cur ++ (if isFirst then [] else [' ']) ++ w) ::
        typeLoop false (cur ++ (if isFirst then [] else [' ']) ++ w) ws := rfl

theorem take_space_ne_nil (ws : List (List Char)) (i : Nat) (hi : i < ws.length) :
    ws.take (i + 1) ≠ [] := by
  intro h
  rw [List.take_eq_nil_iff] at h
  rcases h with h | h
  · exact Nat.succ_ne_zero i h
  · rw [h] at hi
    exact Nat.not_lt_zero i hi

theorem typeLoop_false_eq_map (ws : List (List Char)) (cur : List Char) :
    typeLoop false cur ws =
      (List.range ws.length).map
        (fun i => cur ++ [' '] ++ List.intercalate [' '] (ws.take (i + 1))) := by
  induction ws generalizing cur with
  | nil => simp [typeLoop]
  | cons w ws ih =>
    rw [typeLoop_cons, if_neg (by simp), ih, List.length_cons,
      List.range_succ_eq_map, List.map_cons, List.map_map]
    congr 1
    · simp [List.intercalate]
    · apply List.map_congr_left
      intro i hi
      rw [List.mem_range] at hi
      simp only [Function.comp_apply]
      rw [List.take_succ_cons,
        intercalate_space_cons w (ws.take (i + 1)) (take_space_ne_nil ws i hi)]
      simp [List.append_assoc]

end PromaDashboard

namespace PromaDashboard

theorem typeLoop_false_cons (cur w : List Char) (ws : List (List Char)) :
    typeLoop false cur (w :: ws) =
      (cur ++ [' '] ++ w) :: typeLoop false (cur ++ [' '] ++ w) ws := by
  rw [typeLoop_cons, if_neg (by simp)]

theorem typeLoop_false_getLast (ws : List (List Char)) (cur : List Char)
    (h : ws ≠ []) :
    (typeLoop false cur ws).getLast? =
      some (cur ++ [' '] ++ List.intercalate [' '] ws) := by
  induction ws generalizing cur with
  | nil => cases h rfl
  | cons w ws ih =>
    cases ws with
    | nil => simp [typeLoop, List.intercalate]
    | cons w2 ws2 =>
      rw [typeLoop_false_cons, typeLoop_false_cons, List.getLast?_cons_cons,
        ← typeLoop_false_cons, ih (cur ++ [' '] ++ w) (by simp),
        intercalate_space_cons w (w2 :: ws2) (by simp)]
      simp [List.append_assoc]

theorem typeLoop_chain (ws : List (List Char)) (isFirst : Bool)
    (cur : List Char) :
    List.Chain' (fun a b => ∃ tail, b = a ++ tail) (typeLoop isFirst cur ws) := by
  induction ws generalizing isFirst cur with
  | nil => simp [typeLoop]
  | cons w ws ih =>
    rw [typeLoop_cons, List.chain'_cons']
    refine ⟨?_, ih false _⟩
    intro b hb
    cases ws with
    | nil => simp [typeLoop] at hb
    | cons w2 ws2 =>
      rw [typeLoop_false_cons] at hb
      simp only [List.head?_cons, Option.mem_def, Option.some.injEq] at hb
      exact ⟨[' '] ++ w2, by rw [← hb]; simp [List.append_assoc]⟩

end PromaDashboard

namespace PromaDashboard

theorem typeAIResponse_eq_map (text : List Char) :
    typeAIResponse text =
      (List.range (text.splitOn ' ').length).map
        (fun i => List.intercalate [' '] ((text.splitOn ' ').take (i + 1))) := by
  unfold typeAIResponse
  cases hws : text.splitOn ' ' with
  | nil => simp [typeLoop]
  | cons w ws =>
    rw [typeLoop_cons, if_pos rfl, List.nil_append, List.nil_append,
      typeLoop_false_eq_map, List.length_cons, List.range_succ_eq_map,
      List.map_cons, List.map_map]
    have hhead : List.intercalate [' '] ((w :: ws).take (0 + 1)) = w := by
      simp [List.intercalate]
    rw [hhead]
    congr 1
    apply List.map_congr_left
    intro i hi
    rw [List.mem_range] at hi
    simp only [Function.comp_apply]
    rw [List.take_succ_cons,
      intercalate_space_cons w (ws.take (i + 1)) (take_space_ne_nil ws i hi)]

theorem typeAIResponse_getLast (text : List Char) :
    (typeAIResponse text).getLast? = some text := by
  have hj := List.intercalate_splitOn text ' '
  unfold typeAIResponse
  cases hws : text.splitOn ' ' with
  | nil =>
    exfalso
    rw [hws] at hj
    simp [List.intercalate] at hj
    rw [hj, List.splitOn_nil] at hws
    simp at hws
  | cons w ws =>
    rw [hws] at hj
    cases ws with
    | nil =>
      rw [typeLoop_cons, if_pos rfl]
      simp only [typeLoop, List.nil_append]
      simp [List.intercalate] at hj
      simp [hj]
    | cons w2 ws2 =>
      rw [intercalate_space_cons w (w2 :: ws2) (by simp)] at hj
      rw [typeLoop_cons, if_pos rfl, List.nil_append, List.nil_append,
        typeLoop_false_cons, List.getLast?_cons_cons, ← typeLoop_false_cons,
        typeLoop_false_getLast (w2 :: ws2) w (by simp), hj]

end PromaDashboard

/-- C9: the typing renderer emits exactly the cumulative space-joined
prefixes of the words obtained by splitting the input on the space
character, each emitted string extends the previous one, and the last
emitted string is the full input text (splitting then rejoining with
single spaces reconstructs the input). -/
theorem c9_typing_renderer_emits_cumulative_prefixes (text : List Char) :
    PromaDashboard.typeAIResponse text =
      (List.range (text.splitOn ' ').length).map
        (fun i => List.intercalate [' '] ((text.splitOn ' ').take (i + 1))) ∧
    List.Chain' (fun a b => ∃ tail, b = a ++ tail)
      (PromaDashboard.typeAIResponse text) ∧
    (PromaDashboard.typeAIResponse text).getLast? = some text :=
  ⟨PromaDashboard.typeAIResponse_eq_map text,
    PromaDashboard.typeLoop_chain _ _ _,
    PromaDashboard.typeAIResponse_getLast text⟩
